import Mathlib

/-
Verification of the Parthenon variable-packing layer, the BiCGStab solver
task code, the poisson example package tasks, and the block timer, against
their natural-language specification.  Every definition below is a shallow
embedding translated from the C++ sources:

  src/interface/container_iterator.hpp   (variable packs)
  src/solvers/bicgstab_solver.hpp        (BiCGStab solver tasks)
  src/example/poisson_cg/poisson_cg_package.cpp (poisson package tasks)
  src/utils/block_timer.hpp              (block timer)

Machine reals (C++ double) are modelled by the rationals; device kernels
(par_for / par_reduce over blocks b and interior cells k, j, i) become folds
over per-block lists of interior-cell values.  Definitions whose doc comment
starts with "Modelled from the spec:" stand for code that the given sources
only reference (or for the wording of a spec sentence under test); everything
else follows the source text.
-/

namespace Parthenon

/-! ## Variable packing: container_iterator.hpp -/

/-- Error kinds of the packing layer named by the specification.
FieldNotFound and AmbiguousField are the two std::exit(1) paths of
MakeListFromNames; EmptySelection is the error the specification assigns to
packing an empty field list. -/
inductive PackError where
  | EmptySelection : PackError
  | FieldNotFound : String → PackError
  | AmbiguousField : String → PackError
  deriving DecidableEq

/-- A cell variable as MakePack sees it: the component extents GetDim(6),
GetDim(5), GetDim(4) and the component slices data.Get(k, j, i).  The slice
type alpha abstracts the three spatial dimensions of one component. -/
structure CVar (α : Type) where
  dim6 : Nat
  dim5 : Nat
  dim4 : Nat
  get : Nat → Nat → Nat → α

/-- Component count GetDim(6) * GetDim(5) * GetDim(4) of one variable, the
amount vindex advances while the copy loop runs over it. -/
def ncomp {α : Type} (v : CVar α) : Nat := v.dim6 * v.dim5 * v.dim4

/-- The triple copy loop of MakePack / MakeIndexedPack over one variable:
slices taken in k-outer, j-middle, i-inner order. -/
def flattenVar {α : Type} (v : CVar α) : List α :=
  (List.range v.dim6).flatMap (fun k =>
    (List.range v.dim5).flatMap (fun j =>
      (List.range v.dim4).map (fun i => v.get k j i)))

/-- The flat view MakePack builds: the slices of every variable laid out one
after another, and the flattened variable-axis extent vsize. -/
structure VariablePack (α : Type) where
  data : List α
  vsize : Nat

/-- The view MakeIndexedPack builds: as VariablePack, plus the recorded
index_lo / index_hi pair of every variable (C int values). -/
structure IndexedVariablePack (α : Type) where
  data : List α
  vsize : Nat
  offs : List (Int × Int)

/-- MakePack.  The source runs vars.front() with no emptiness check, which on
an empty list has no defined result: that case is none.  Otherwise the data
array concatenates every variable's slices in list order (the vindex loop) and
vsize is the precomputed total component count. -/
def makePack {α : Type} (vars : List (CVar α)) : Option (VariablePack α) :=
  match vars with
  | [] => none
  | _ :: _ => some { data := vars.flatMap flattenVar, vsize := (vars.map ncomp).sum }

/-- The ilo / ihi recording loop of MakeIndexedPack: per variable, h_ilo is
vindex before its copy loop and h_ihi is vindex - 1 after it. -/
def offsRec {α : Type} (vindex : Int) : List (CVar α) → List (Int × Int)
  | [] => []
  | v :: rest => (vindex, vindex + ncomp v - 1) :: offsRec (vindex + ncomp v) rest

/-- MakeIndexedPack: MakePack plus the recorded offsets, with the same
unchecked vars.front() access on an empty list. -/
def makeIndexedPack {α : Type} (vars : List (CVar α)) :
    Option (IndexedVariablePack α) :=
  match vars with
  | [] => none
  | _ :: _ => some { data := vars.flatMap flattenVar,
                     vsize := (vars.map ncomp).sum,
                     offs := offsRec 0 vars }

/-- Association-list lookup standing for std::map::find of the container's
variable and sparse-variable maps. -/
def alookup {β : Type} : List (String × β) → String → Option β
  | [], _ => none
  | (k, b) :: rest, n => if k = n then some b else alookup rest n

/-- The container as MakeListFromNames consumes it: the plain cell-variable
map and the sparse-variable map, each keyed by field name. -/
structure Container (α : Type) where
  varMap : List (String × CVar α)
  sparseMap : List (String × List (CVar α))

/-- Loop body of MakeListFromNames.  Names are processed from rbegin to rend
and each hit is pushed on the front of vars; a name found in both maps exits
with the ambiguous-field error, a name found in neither with the
field-not-found error; a sparse hit pushes its component vector (itself walked
from rbegin) so the components land in order at the front. -/
def makeListGo {α : Type} (c : Container α) :
    List String → List (CVar α) → Except PackError (List (CVar α))
  | [], acc => .ok acc
  | n :: rest, acc =>
    match alookup c.varMap n, alookup c.sparseMap n with
    | some _, some _ => .error (.AmbiguousField n)
    | some v, none => makeListGo c rest (v :: acc)
    | none, some svec => makeListGo c rest (svec ++ acc)
    | none, none => .error (.FieldNotFound n)

/-- MakeListFromNames: the reverse iteration over names feeding makeListGo
with an empty accumulator. -/
def makeListFromNames {α : Type} (c : Container α) (names : List String) :
    Except PackError (List (CVar α)) :=
  makeListGo c names.reverse []

/-- PackVariables over a name list: resolve the names, then MakePack. -/
def packVariablesByName {α : Type} (c : Container α) (names : List String) :
    Except PackError (Option (VariablePack α)) :=
  (makeListFromNames c names).map makePack

/-- PackIndexedVariables: resolve the names, then MakeIndexedPack. -/
def packIndexedVariables {α : Type} (c : Container α) (names : List String) :
    Except PackError (Option (IndexedVariablePack α)) :=
  (makeListFromNames c names).map makeIndexedPack

/-- Modelled from the spec: pack construction that reports EmptySelection on
an empty field list (spec 4.1 edge cases).  The source MakePack has no such
check; this definition exists to contrast with it. -/
def makePackChecked {α : Type} (vars : List (CVar α)) :
    Except PackError (VariablePack α) :=
  match vars with
  | [] => .error .EmptySelection
  | _ :: _ => .ok { data := vars.flatMap flattenVar, vsize := (vars.map ncomp).sum }

/-- Reading a pack through a recorded offset pair: the entries from index lo
through index hi of the flattened variable axis. -/
def readRange {α : Type} (data : List α) (lo hi : Int) : List α :=
  (data.drop lo.toNat).take (hi + 1 - lo).toNat

/-- Sum of the component counts of the first n variables: the value vindex
holds when the copy loop reaches variable n. -/
def csum {α : Type} (vs : List (CVar α)) (n : Nat) : Nat :=
  ((vs.take n).map ncomp).sum

theorem length_flattenVar {α : Type} (v : CVar α) :
    (flattenVar v).length = ncomp v := by
  simp [flattenVar, List.length_flatMap, Function.comp_def, List.length_map,
    List.length_range, List.map_const', List.sum_replicate, smul_eq_mul, ncomp]
  ring

theorem csum_zero {α : Type} (vs : List (CVar α)) : csum vs 0 = 0 := rfl

theorem csum_cons_succ {α : Type} (v : CVar α) (vs : List (CVar α)) (n : Nat) :
    csum (v :: vs) (n + 1) = ncomp v + csum vs n := by
  simp [csum]

theorem flatMap_drop_csum {α : Type} :
    ∀ (n : Nat) (vs : List (CVar α)),
      (vs.flatMap flattenVar).drop (csum vs n) = (vs.drop n).flatMap flattenVar := by
  intro n
  induction n with
  | zero => intro vs; simp [csum_zero]
  | succ m ih =>
    intro vs
    cases vs with
    | nil => simp [csum]
    | cons v rest =>
      rw [csum_cons_succ, List.flatMap_cons, ← length_flattenVar (v := v),
        List.drop_append, List.drop_succ_cons]
      exact ih rest

theorem offsRec_length {α : Type} :
    ∀ (vs : List (CVar α)) (base : Int), (offsRec base vs).length = vs.length := by
  intro vs
  induction vs with
  | nil => intro base; rfl
  | cons v rest ih => intro base; simp [offsRec, ih]

theorem offsRec_getElem {α : Type} :
    ∀ (vs : List (CVar α)) (base : Int) (n : Nat) (v : CVar α),
      vs[n]? = some v →
      (offsRec base vs)[n]? =
        some (base + csum vs n, base + csum vs n + ncomp v - 1) := by
  intro vs
  induction vs with
  | nil => intro base n v h; simp at h
  | cons w rest ih =>
    intro base n v h
    cases n with
    | zero =>
      simp at h
      subst h
      simp [offsRec, csum_zero]
    | succ m =>
      simp at h
      rw [csum_cons_succ]
      have := ih (base + ncomp w) m v h
      simp only [offsRec, List.getElem?_cons_succ]
      rw [this]
      simp only [Option.some.injEq, Prod.mk.injEq]
      constructor <;> (push_cast; ring)

theorem makeListGo_append {α : Type} (c : Container α) :
    ∀ (l1 l2 : List String) (acc : List (CVar α)),
      makeListGo c (l1 ++ l2) acc =
        match makeListGo c l1 acc with
        | .ok acc1 => makeListGo c l2 acc1
        | .error e => .error e := by
  intro l1
  induction l1 with
  | nil => intro l2 acc; rfl
  | cons n rest ih =>
    intro l2 acc
    rcases h1 : alookup c.varMap n with _ | v <;>
      rcases h2 : alookup c.sparseMap n with _ | sv <;>
        simp only [List.cons_append, makeListGo, h1, h2] <;>
          first
            | rfl
            | exact ih l2 _

/-- When every name resolves to a plain cell variable (and to no sparse
variable), MakeListFromNames succeeds and returns the resolved variables in
the order of the name list. -/
theorem makeListFromNames_all_plain {α : Type} (c : Container α) :
    ∀ (names : List String) (vs : List (CVar α)),
      names.length = vs.length →
      (∀ p ∈ names.zip vs,
        alookup c.varMap p.1 = some p.2 ∧ alookup c.sparseMap p.1 = none) →
      makeListFromNames c names = .ok vs := by
  intro names
  induction names with
  | nil =>
    intro vs hlen _
    cases vs with
    | nil => rfl
    | cons v rest => simp at hlen
  | cons n rest ih =>
    intro vs hlen hok
    cases vs with
    | nil => simp at hlen
    | cons v vrest =>
      have hn : alookup c.varMap n = some v ∧ alookup c.sparseMap n = none :=
        hok (n, v) (by simp)
      have hrest : makeListFromNames c rest = .ok vrest := by
        apply ih vrest (by simpa using hlen)
        intro p hp
        exact hok p (by simp [hp])
      unfold makeListFromNames at hrest ⊢
      rw [List.reverse_cons, makeListGo_append, hrest]
      simp [makeListGo, hn.1, hn.2]

theorem flatMap_extract {α : Type} (vs : List (CVar α)) (n : Nat) (v : CVar α)
    (hv : vs[n]? = some v) :
    ((vs.flatMap flattenVar).drop (csum vs n)).take (ncomp v) = flattenVar v := by
  have hn : n < vs.length := by
    by_contra hge
    rw [List.getElem?_eq_none (by omega)] at hv
    exact Option.noConfusion hv
  have hdrop : vs.drop n = v :: vs.drop (n + 1) := by
    rw [List.drop_eq_getElem_cons hn]
    congr 1
    have := List.getElem?_eq_getElem hn
    rw [this] at hv
    exact Option.some.injEq _ _ ▸ hv
  rw [flatMap_drop_csum, hdrop, List.flatMap_cons, ← length_flattenVar (v := v),
    List.take_left]

/-- A name found in the plain cell-variable map. -/
def foundPlain {α : Type} (c : Container α) (n : String) : Prop :=
  (alookup c.varMap n).isSome

/-- A name found in the sparse-variable map. -/
def foundSparse {α : Type} (c : Container α) (n : String) : Prop :=
  (alookup c.sparseMap n).isSome

theorem makeListGo_ambiguous {α : Type} (c : Container α) :
    ∀ (l : List String) (acc : List (CVar α)),
      (∀ n ∈ l, foundPlain c n ∨ foundSparse c n) →
      (∃ n ∈ l, foundPlain c n ∧ foundSparse c n) →
      ∃ m, foundPlain c m ∧ foundSparse c m ∧
        makeListGo c l acc = .error (.AmbiguousField m) := by
  intro l
  induction l with
  | nil =>
    intro acc _ hex
    rcases hex with ⟨n, hn, _⟩
    exact absurd hn (List.not_mem_nil n)
  | cons n rest ih =>
    intro acc hall hex
    rcases h1 : alookup c.varMap n with _ | v <;>
      rcases h2 : alookup c.sparseMap n with _ | sv
    · rcases hall n (by simp) with hp | hs
      · rw [foundPlain, h1] at hp; exact absurd hp (by simp)
      · rw [foundSparse, h2] at hs; exact absurd hs (by simp)
    · have hex2 : ∃ m ∈ rest, foundPlain c m ∧ foundSparse c m := by
        rcases hex with ⟨m, hm, hmp, hms⟩
        rcases List.mem_cons.1 hm with rfl | hm2
        · rw [foundPlain, h1] at hmp; exact absurd hmp (by simp)
        · exact ⟨m, hm2, hmp, hms⟩
      rcases ih (sv ++ acc) (fun m hm => hall m (by simp [hm])) hex2 with
        ⟨m, hmp, hms, hgo⟩
      exact ⟨m, hmp, hms, by simp only [makeListGo, h1, h2]; exact hgo⟩
    · have hex2 : ∃ m ∈ rest, foundPlain c m ∧ foundSparse c m := by
        rcases hex with ⟨m, hm, hmp, hms⟩
        rcases List.mem_cons.1 hm with rfl | hm2
        · rw [foundSparse, h2] at hms; exact absurd hms (by simp)
        · exact ⟨m, hm2, hmp, hms⟩
      rcases ih (v :: acc) (fun m hm => hall m (by simp [hm])) hex2 with
        ⟨m, hmp, hms, hgo⟩
      exact ⟨m, hmp, hms, by simp only [makeListGo, h1, h2]; exact hgo⟩
    · refine ⟨n, ?_, ?_, by simp only [makeListGo, h1, h2]⟩
      · rw [foundPlain, h1]; simp
      · rw [foundSparse, h2]; simp

theorem makeListGo_not_found {α : Type} (c : Container α) :
    ∀ (l : List String) (acc : List (CVar α)),
      (∀ n ∈ l, ¬(foundPlain c n ∧ foundSparse c n)) →
      (∃ n ∈ l, ¬foundPlain c n ∧ ¬foundSparse c n) →
      ∃ m, ¬foundPlain c m ∧ ¬foundSparse c m ∧
        makeListGo c l acc = .error (.FieldNotFound m) := by
  intro l
  induction l with
  | nil =>
    intro acc _ hex
    rcases hex with ⟨n, hn, _⟩
    exact absurd hn (List.not_mem_nil n)
  | cons n rest ih =>
    intro acc hnone hex
    rcases h1 : alookup c.varMap n with _ | v <;>
      rcases h2 : alookup c.sparseMap n with _ | sv
    · refine ⟨n, ?_, ?_, by simp only [makeListGo, h1, h2]⟩
      · rw [foundPlain, h1]; simp
      · rw [foundSparse, h2]; simp
    · have hex2 : ∃ m ∈ rest, ¬foundPlain c m ∧ ¬foundSparse c m := by
        rcases hex with ⟨m, hm, hmp, hms⟩
        rcases List.mem_cons.1 hm with rfl | hm2
        · rw [foundSparse, h2] at hms; simp at hms
        · exact ⟨m, hm2, hmp, hms⟩
      rcases ih (sv ++ acc) (fun m hm => hnone m (by simp [hm])) hex2 with
        ⟨m, hmp, hms, hgo⟩
      exact ⟨m, hmp, hms, by simp only [makeListGo, h1, h2]; exact hgo⟩
    · have hex2 : ∃ m ∈ rest, ¬foundPlain c m ∧ ¬foundSparse c m := by
        rcases hex with ⟨m, hm, hmp, hms⟩
        rcases List.mem_cons.1 hm with rfl | hm2
        · rw [foundPlain, h1] at hmp; simp at hmp
        · exact ⟨m, hm2, hmp, hms⟩
      rcases ih (v :: acc) (fun m hm => hnone m (by simp [hm])) hex2 with
        ⟨m, hmp, hms, hgo⟩
      exact ⟨m, hmp, hms, by simp only [makeListGo, h1, h2]; exact hgo⟩
    · exact absurd ⟨by rw [foundPlain, h1]; simp, by rw [foundSparse, h2]; simp⟩
        (hnone n (by simp))

theorem flatMap_length_ncomp {α : Type} (vs : List (CVar α)) :
    (vs.flatMap flattenVar).length = (vs.map ncomp).sum := by
  rw [List.length_flatMap]
  congr 1
  simp [Function.comp_def, length_flattenVar]

/-- C3: for a non-empty ordered name list resolving to plain cell variables of
the container, the indexed pack concatenates the variables' component slices
in list order, its variable-axis extent is the sum of the component counts,
and for every listed variable the recorded offset pair (lo, hi) satisfies
hi - lo + 1 = component count and reads back exactly that variable's
slices, unaffected by the other packed variables. -/
theorem C3_indexed_pack_offsets {α : Type} (c : Container α) (names : List String)
    (vs : List (CVar α)) (hne : names ≠ []) (hlen : names.length = vs.length)
    (hok : ∀ p ∈ names.zip vs,
      alookup c.varMap p.1 = some p.2 ∧ alookup c.sparseMap p.1 = none) :
    ∃ pk : IndexedVariablePack α,
      packIndexedVariables c names = .ok (some pk)
      ∧ pk.data = vs.flatMap flattenVar
      ∧ pk.vsize = (vs.map ncomp).sum
      ∧ pk.data.length = pk.vsize
      ∧ pk.offs.length = vs.length
      ∧ (∀ n v, vs[n]? = some v →
          ∃ lo hi : Int, pk.offs[n]? = some (lo, hi)
            ∧ lo = (csum vs n : Int)
            ∧ hi - lo + 1 = (ncomp v : Int)
            ∧ readRange pk.data lo hi = flattenVar v) := by
  have hlist : makeListFromNames c names = .ok vs :=
    makeListFromNames_all_plain c names vs hlen hok
  cases vs with
  | nil =>
    exact absurd (List.length_eq_zero.mp hlen) hne
  | cons v0 vrest =>
    refine ⟨{ data := (v0 :: vrest).flatMap flattenVar,
              vsize := ((v0 :: vrest).map ncomp).sum,
              offs := offsRec 0 (v0 :: vrest) }, ?_, rfl, rfl, ?_, ?_, ?_⟩
    · rw [packIndexedVariables, hlist]
      rfl
    · exact flatMap_length_ncomp (v0 :: vrest)
    · exact offsRec_length (v0 :: vrest) 0
    · intro n v hv
      refine ⟨0 + (csum (v0 :: vrest) n : Int),
              0 + (csum (v0 :: vrest) n : Int) + (ncomp v : Int) - 1,
              offsRec_getElem (v0 :: vrest) 0 n v hv, by ring, by ring, ?_⟩
      have h1 : (0 + (csum (v0 :: vrest) n : Int)).toNat = csum (v0 :: vrest) n := by
        simp
      have h2 : ((0 + (csum (v0 :: vrest) n : Int) + (ncomp v : Int) - 1) + 1
          - (0 + (csum (v0 :: vrest) n : Int))).toNat = ncomp v := by
        have : (0 + (csum (v0 :: vrest) n : Int) + (ncomp v : Int) - 1) + 1
            - (0 + (csum (v0 :: vrest) n : Int)) = (ncomp v : Int) := by ring
        rw [this]
        simp
      rw [readRange, h1, h2]
      exact flatMap_extract (v0 :: vrest) n v hv

/-- A concrete two-component variable named a in the witness container. -/
def wva : CVar Int := ⟨1, 1, 2, fun _ _ i => 10 + i⟩

/-- A concrete two-component variable named b in the witness container. -/
def wvb : CVar Int := ⟨1, 2, 1, fun _ j _ => 20 + j⟩

/-- A concrete one-component variable named c in the witness container. -/
def wvc : CVar Int := ⟨1, 1, 1, fun _ _ _ => 30⟩

/-- The witness container holding the plain fields a, b, c. -/
def wcont : Container Int :=
  { varMap := [("a", wva), ("b", wvb), ("c", wvc)], sparseMap := [] }

/-- The variables the witness name list resolves to, in list order. -/
def wvs : List (CVar Int) := [wva, wvb, wvc]

/-- C3 witness: packing the fields a, b, c (with 2, 2 and 1 components) from a
concrete container and reading each back through its recorded offsets. -/
theorem C3_indexed_pack_offsets_witness :
    ∃ pk : IndexedVariablePack Int,
      packIndexedVariables wcont ["a", "b", "c"] = .ok (some pk)
      ∧ pk.data = wvs.flatMap flattenVar
      ∧ pk.vsize = (wvs.map ncomp).sum
      ∧ pk.data.length = pk.vsize
      ∧ pk.offs.length = wvs.length
      ∧ (∀ n v, wvs[n]? = some v →
          ∃ lo hi : Int, pk.offs[n]? = some (lo, hi)
            ∧ lo = (csum wvs n : Int)
            ∧ hi - lo + 1 = (ncomp v : Int)
            ∧ readRange pk.data lo hi = flattenVar v) := by
  refine C3_indexed_pack_offsets wcont ["a", "b", "c"] wvs (by simp) rfl ?_
  intro p hp
  fin_cases hp <;> exact ⟨rfl, rfl⟩

/-- A concrete empty container. -/
def emptyCont : Container Int := { varMap := [], sparseMap := [] }

/-- C5 counterexample: packing the empty field list from a concrete container
reports no error at all (in particular not EmptySelection, as the claim
states): name resolution succeeds with an empty variable list and MakePack
then performs its unchecked vars.front() access, building no view. -/
theorem C5_empty_selection_counterexample :
    packVariablesByName emptyCont [] = .ok none
    ∧ (∀ e : PackError, packVariablesByName emptyCont [] ≠ .error e)
    ∧ makePackChecked ([] : List (CVar Int)) = .error .EmptySelection := by
  refine ⟨rfl, ?_, rfl⟩
  intro e h
  rw [show packVariablesByName emptyCont [] = .ok none from rfl] at h
  exact Except.noConfusion h

/-- C5 amended: an empty field selection is not checked and no EmptySelection
error is reported; MakePack and MakeIndexedPack run their unconditional
vars.front() access, which on an empty list has no defined result (modelled
none), so pack construction yields no view and no error. -/
theorem C5_empty_selection_unchecked {α : Type} (c : Container α) :
    packVariablesByName c [] = .ok none
    ∧ packIndexedVariables c [] = .ok none
    ∧ makePack ([] : List (CVar α)) = none
    ∧ makeIndexedPack ([] : List (CVar α)) = none :=
  ⟨rfl, rfl, rfl, rfl⟩

/-- C6: a name list whose names all resolve but where some name is found both
as a plain cell variable and as a sparse variable is rejected with the
ambiguous-field error; and a name list without such double hits in which some
name is found in neither map fails with the field-not-found error. -/
theorem C6_name_resolution_errors {α : Type} (c : Container α) (names : List String) :
    ((∀ n ∈ names, foundPlain c n ∨ foundSparse c n) →
     (∃ n ∈ names, foundPlain c n ∧ foundSparse c n) →
     ∃ m, foundPlain c m ∧ foundSparse c m ∧
       makeListFromNames c names = .error (.AmbiguousField m))
    ∧ ((∀ n ∈ names, ¬(foundPlain c n ∧ foundSparse c n)) →
       (∃ n ∈ names, ¬foundPlain c n ∧ ¬foundSparse c n) →
       ∃ m, ¬foundPlain c m ∧ ¬foundSparse c m ∧
         makeListFromNames c names = .error (.FieldNotFound m)) := by
  constructor
  · intro hall hex
    rcases makeListGo_ambiguous c names.reverse []
        (fun n hn => hall n (List.mem_reverse.mp hn))
        (by rcases hex with ⟨n, hn, h⟩; exact ⟨n, List.mem_reverse.mpr hn, h⟩) with
      ⟨m, hmp, hms, hgo⟩
    exact ⟨m, hmp, hms, hgo⟩
  · intro hnone hex
    rcases makeListGo_not_found c names.reverse []
        (fun n hn => hnone n (List.mem_reverse.mp hn))
        (by rcases hex with ⟨n, hn, h⟩; exact ⟨n, List.mem_reverse.mpr hn, h⟩) with
      ⟨m, hmp, hms, hgo⟩
    exact ⟨m, hmp, hms, hgo⟩

/-- A concrete container holding the name b both as a plain cell variable and
as a sparse variable. -/
def ambCont : Container Int :=
  { varMap := [("b", ⟨1, 1, 1, fun _ _ _ => 7⟩)],
    sparseMap := [("b", [⟨1, 1, 1, fun _ _ _ => 8⟩])] }

/-- C6 witness: on a container holding the name b in both maps, resolving
the list b is rejected as ambiguous, and resolving the absent name z on an
empty container fails as not found. -/
theorem C6_name_resolution_errors_witness :
    (∃ m, foundPlain ambCont m ∧ foundSparse ambCont m
      ∧ makeListFromNames ambCont ["b"] = .error (.AmbiguousField m))
    ∧ (∃ m, ¬foundPlain emptyCont m ∧ ¬foundSparse emptyCont m
      ∧ makeListFromNames emptyCont ["z"] = .error (.FieldNotFound m)) := by
  constructor
  · refine (C6_name_resolution_errors ambCont ["b"]).1 ?_ ?_
    · intro n hn
      fin_cases hn
      exact Or.inl (by rw [foundPlain]; rfl)
    · exact ⟨"b", by simp, by rw [foundPlain]; rfl, by rw [foundSparse]; rfl⟩
  · refine (C6_name_resolution_errors emptyCont ["z"]).2 ?_ ?_
    · intro n hn h
      rw [foundPlain] at h
      simp [emptyCont, alookup] at h
    · exact ⟨"z", by simp, by rw [foundPlain]; simp [emptyCont, alookup],
        by rw [foundSparse]; simp [emptyCont, alookup]⟩

/-! ## Block timer: block_timer.hpp -/

/-- Largest value of a 64 bit unsigned clock reading,
std::numeric_limits of uint64_t max. -/
def u64Max : Int := 2 ^ 64 - 1

/-- Elapsed time computed by the BlockTimer destructor: stop - start, except
that a stop reading below the start reading (clock overflow) is handled as
(max - start) + stop. -/
def blockTimerElapsed (start stop : Int) : Int :=
  if stop < start then (u64Max - start) + stop else stop - start

/-- The destructor atomically adds the elapsed value onto the cost
accumulator it was constructed with. -/
def blockTimerAdd (cost start stop : Int) : Int :=
  cost + blockTimerElapsed start stop

/-- C10: for clock readings in the 64 bit unsigned range, the value the
BlockTimer destructor adds to its cost accumulator is non-negative, also in
the wraparound case stop < start, which is handled as the distance from start
to the maximum 64 bit value plus the stop reading; the cost accumulator never
decreases. -/
theorem C10_block_timer_nonneg (start stop : Int)
    (h1 : 0 ≤ start) (h2 : start ≤ u64Max) (h3 : 0 ≤ stop) (h4 : stop ≤ u64Max) :
    0 ≤ blockTimerElapsed start stop
    ∧ (stop < start → blockTimerElapsed start stop = (u64Max - start) + stop)
    ∧ (∀ cost : Int, cost ≤ blockTimerAdd cost start stop) := by
  have he : 0 ≤ blockTimerElapsed start stop := by
    rw [blockTimerElapsed]
    split
    · omega
    · omega
  refine ⟨he, ?_, ?_⟩
  · intro hlt
    rw [blockTimerElapsed, if_pos hlt]
  · intro cost
    rw [blockTimerAdd]
    omega

/-- C10 witness: the wraparound pair start 5, stop 3 inside the 64 bit
range. -/
theorem C10_block_timer_nonneg_witness :
    0 ≤ blockTimerElapsed 5 3
    ∧ ((3 : Int) < 5 → blockTimerElapsed 5 3 = (u64Max - 5) + 3)
    ∧ (∀ cost : Int, cost ≤ blockTimerAdd cost 5 3) :=
  C10_block_timer_nonneg 5 3 (by decide) (by decide) (by decide) (by decide)

/-! ## Poisson package tasks: poisson_cg_package.cpp -/

/-- A block-structured grid of interior cell values: one list of cell values
per mesh block, machine reals modelled by the rationals. -/
abbrev Grid := List (List ℚ)

/-- Error kind the specification assigns to the PARTHENON_REQUIRE_THROWS
grid-spacing checks of the poisson package tasks. -/
inductive PoissonError where
  | NonUniformGridSpacing : PoissonError
  deriving DecidableEq

/-- The grid-spacing check loop shared by SetRHS, UpdatePhi and SumMass: for
each direction d from X2DIR = 2 up to ndim, the spacing Dx(d) must equal the
X1 spacing Dx(1); true when some direction violates this. -/
def spacingViolation (dx : Nat → ℚ) (ndim : Nat) : Bool :=
  (List.range' 2 (ndim - 1)).any (fun d => !(dx 1 == dx d))

theorem spacingViolation_iff (dx : Nat → ℚ) (ndim : Nat) :
    spacingViolation dx ndim = true ↔ ∃ d, 2 ≤ d ∧ d ≤ ndim ∧ dx 1 ≠ dx d := by
  rw [spacingViolation, List.any_eq_true]
  constructor
  · rintro ⟨d, hd, hne⟩
    rcases List.mem_range'_1.mp hd with ⟨hd2, hdlt⟩
    refine ⟨d, hd2, by omega, ?_⟩
    simpa using hne
  · rintro ⟨d, hd2, hdle, hne⟩
    refine ⟨d, List.mem_range'_1.mpr ⟨hd2, by omega⟩, ?_⟩
    simpa using hne

/-- SetRHS: after the grid-spacing check, every interior cell of the rhs
field is overwritten with -dV times the density, dV being the X1 spacing
raised to the problem dimension; on a spacing violation the task throws
before any cell update. -/
def SetRHS (dx : Nat → ℚ) (ndim : Nat) (rho : Grid) : Except PoissonError Grid :=
  if spacingViolation dx ndim then .error .NonUniformGridSpacing
  else
    .ok (rho.map (fun b => b.map (fun r => -((dx 1) ^ ndim) * r)))

/-- The par_reduce sum of a grid, folding blocks outer and cells inner. -/
def parReduceSum (f : Grid) : ℚ :=
  f.foldl (fun acc b => b.foldl (fun a x => a + x) acc) 0

/-- SumMass: after the grid-spacing check, the par_reduce accumulates density
times dx to the ndim-th power over all blocks and interior cells, and the
total is added onto the shared accumulator; on a spacing violation the task
throws before any accumulation. -/
def SumMass (dx : Nat → ℚ) (ndim : Nat) (rho : Grid) (reduce_sum : ℚ) :
    Except PoissonError ℚ :=
  if spacingViolation dx ndim then .error .NonUniformGridSpacing
  else
    .ok (reduce_sum + parReduceSum (rho.map (fun b => b.map (fun r => r * (dx 1) ^ ndim))))

/-- UpdatePhi: after the grid-spacing check, the correction field receives
the Jacobi update phi_new - phi per cell and the potential then accumulates
the correction.  The per-cell phi_new of the stencil or sparse accessor is
the parameter jac (the accessor lives in solvers/solver_utils.hpp, which the
given sources only reference); on a spacing violation the task throws before
any cell update. -/
def UpdatePhi (dx : Nat → ℚ) (ndim : Nat) (jac : Nat → Nat → ℚ) (phi : Grid) :
    Except PoissonError (Grid × Grid) :=
  if spacingViolation dx ndim then .error .NonUniformGridSpacing
  else
    let dphi := phi.mapIdx (fun b blk => blk.mapIdx (fun ci p => jac b ci - p))
    .ok ((phi.zipWith (fun bp bd => bp.zipWith (fun p d => p + d) bd) dphi), dphi)

/-- C8: whenever the spacing of some axis from X2 up to the problem dimension
differs from the X1 spacing, SetRHS, UpdatePhi and SumMass all raise the
grid-spacing error before any cell update or accumulation (the error result
carries no updated field or accumulator); when all axis spacings agree each
task completes normally with its updates applied. -/
theorem C8_grid_spacing_guard (dx : Nat → ℚ) (ndim : Nat) (jac : Nat → Nat → ℚ)
    (rho phi : Grid) (acc : ℚ) :
    ((∃ d, 2 ≤ d ∧ d ≤ ndim ∧ dx 1 ≠ dx d) →
      SetRHS dx ndim rho = .error .NonUniformGridSpacing
      ∧ SumMass dx ndim rho acc = .error .NonUniformGridSpacing
      ∧ UpdatePhi dx ndim jac phi = .error .NonUniformGridSpacing)
    ∧ ((∀ d, 2 ≤ d → d ≤ ndim → dx 1 = dx d) →
      SetRHS dx ndim rho =
        .ok (rho.map (fun b => b.map (fun r => -((dx 1) ^ ndim) * r)))
      ∧ SumMass dx ndim rho acc =
        .ok (acc + parReduceSum (rho.map (fun b => b.map (fun r => r * (dx 1) ^ ndim))))
      ∧ (∃ u, UpdatePhi dx ndim jac phi = .ok u)) := by
  constructor
  · intro hex
    have hv : spacingViolation dx ndim = true := (spacingViolation_iff dx ndim).mpr hex
    exact ⟨by rw [SetRHS, hv]; rfl, by rw [SumMass, hv]; rfl, by rw [UpdatePhi, hv]; rfl⟩
  · intro hall
    have hv : spacingViolation dx ndim = false := by
      rcases h : spacingViolation dx ndim with _ | _
      · rfl
      · rcases (spacingViolation_iff dx ndim).mp h with ⟨d, hd2, hdle, hne⟩
        exact absurd (hall d hd2 hdle) hne
    refine ⟨by rw [SetRHS, hv]; rfl, by rw [SumMass, hv]; rfl, ?_⟩
    rw [UpdatePhi, hv]
    exact ⟨_, rfl⟩

/-- A spacing function with Dx(1) = 1 and Dx(d) = 2 on every other axis. -/
def dxBad : Nat → ℚ := fun d => if d = 1 then 1 else 2

/-- The unit constant spacing function. -/
def dxGood : Nat → ℚ := fun _ => 1

/-- C8 witness: in two dimensions the mismatched spacing function makes
SetRHS, SumMass and UpdatePhi report the grid-spacing error, and the uniform
spacing function lets all three complete. -/
theorem C8_grid_spacing_guard_witness :
    (SetRHS dxBad 2 [[3]] = .error .NonUniformGridSpacing
      ∧ SumMass dxBad 2 [[3]] 0 = .error .NonUniformGridSpacing
      ∧ UpdatePhi dxBad 2 (fun _ _ => 0) [[3]] = .error .NonUniformGridSpacing)
    ∧ (SetRHS dxGood 2 [[3]] =
        .ok ([[3]].map (fun b => b.map (fun r => -((dxGood 1) ^ 2) * r)))
      ∧ SumMass dxGood 2 [[3]] 0 =
        .ok (0 + parReduceSum ([[3]].map (fun b => b.map (fun r => r * (dxGood 1) ^ 2))))
      ∧ (∃ u, UpdatePhi dxGood 2 (fun _ _ => 0) [[3]] = .ok u)) :=
  ⟨(C8_grid_spacing_guard dxBad 2 (fun _ _ => 0) [[3]] [[3]] 0).1
      ⟨2, le_refl 2, le_refl 2, by norm_num [dxBad]⟩,
   (C8_grid_spacing_guard dxGood 2 (fun _ _ => 0) [[3]] [[3]] 0).2
      (fun _ _ _ => rfl)⟩

/-! ## BiCGStab solver tasks: bicgstab_solver.hpp -/

/-- The par_reduce of DotProduct: gsum starts at zero and accumulates the
product of pack entries 0 and 1 over all blocks and interior cells. -/
def parReduceDot (f g : Grid) : ℚ :=
  (f.zip g).foldl
    (fun acc bp => (bp.1.zip bp.2).foldl (fun a p => a + p.1 * p.2) acc) 0

/-- Reference serial sum of pointwise products over all blocks and interior
cells, used to state what the accumulating tasks compute. -/
def dotSum (f g : Grid) : ℚ :=
  ((f.zip g).map (fun bp => ((bp.1.zip bp.2).map (fun p => p.1 * p.2)).sum)).sum

/-- Pointwise combination of two fields over blocks and interior cells. -/
def gridZip2 (op : ℚ → ℚ → ℚ) (f g : Grid) : Grid :=
  f.zipWith (fun bf bg => bf.zipWith op bg) g

/-- Pointwise combination of three fields over blocks and interior cells. -/
def gridZip3 (op : ℚ → ℚ → ℚ → ℚ) (f g h : Grid) : Grid :=
  (f.zip g).zipWith (fun bp bh => (bp.1.zip bp.2).zipWith (fun p x => op p.1 p.2 x) bh) h

/-- The same-shaped all-zero field, as written by the initialization kernel. -/
def zeroLike (f : Grid) : Grid := f.map (fun b => b.map (fun _ => 0))

/-- A field whose every block and interior cell holds zero. -/
def isZeroGrid (f : Grid) : Prop := ∀ b ∈ f, ∀ x ∈ b, x = 0

/-- The BiCGStabSolver state: the solver-owned fields res, res0, vk, pk, tk,
the solution field of the output container, the right-hand-side field, the
member scalars, and the shared reduction accumulators (each AllReduce val). -/
structure BState where
  res : Grid
  res0 : Grid
  vk : Grid
  pk : Grid
  tk : Grid
  sol : Grid
  rhs : Grid
  rhoi_old : ℚ
  alpha : ℚ
  omega : ℚ
  rhoi : ℚ
  r0_dot_vk : ℚ
  t_dot_s : ℚ
  t_dot_t : ℚ
  gres0 : ℚ
  gres : ℚ
  deriving DecidableEq

/-- InitializeBiCGStab: res and res0 are set to the right-hand side, vk, pk
and the solution guess to zero, the member scalars rhoi_old, alpha, omega to
one, and the par_reduce adds the PLAIN sum of the right-hand-side values (the
kernel accumulates lerr += v(b, irhs, k, j, i), with no squaring) onto the
gres0 accumulator. -/
def InitializeBiCGStab (s : BState) : BState :=
  { s with res := s.rhs, res0 := s.rhs,
           vk := zeroLike s.rhs, pk := zeroLike s.rhs, sol := zeroLike s.sol,
           rhoi_old := 1, alpha := 1, omega := 1,
           gres0 := s.gres0 + parReduceSum s.rhs }

/-- DotProduct: the par_reduce sum of the two packed fields' products is
added onto (not written over) the shared accumulator. -/
def DotProduct (vec1 vec2 : Grid) (reduce_sum : ℚ) : ℚ :=
  reduce_sum + parReduceDot vec1 vec2

/-- The get_rhoi task: DotProduct of res0 and res into the rhoi handle. -/
def Task_get_rhoi (s : BState) : BState :=
  { s with rhoi := DotProduct s.res0 s.res s.rhoi }

/-- The get_r0dotv task: DotProduct of res0 and vk into the r0_dot_vk
handle. -/
def Task_get_r0dotv (s : BState) : BState :=
  { s with r0_dot_vk := DotProduct s.res0 s.vk s.r0_dot_vk }

/-- The MatVec task writing v = A p.  The SparseMatrixAccessor it applies
lives in solvers/solver_utils.hpp, which the given sources only reference, so
the product field enters as the parameter vkProduct. -/
def Task_MatVec_pk (vkProduct : Grid) (s : BState) : BState :=
  { s with vk := vkProduct }

/-- Compute_pk: beta = (rhoi / rhoi_old) * (alpha / omega) from the current
member scalars, rhoi_old is refreshed to rhoi, and every block and interior
cell gets p = r + beta * (p - omega * v). -/
def Compute_pk (s : BState) : BState :=
  let beta := (s.rhoi / s.rhoi_old) * (s.alpha / s.omega)
  let w := s.omega
  { s with pk := gridZip3 (fun r p v => r + beta * (p - w * v)) s.res s.pk s.vk,
           rhoi_old := s.rhoi }

/-- Modelled from the spec: step 2 with the claim's reading of alpha, namely
the previous cycle's rhoi / (r0 dot v) of step 5, supplied explicitly as
alphaPrev; otherwise identical to Compute_pk. -/
def Compute_pk_spec (alphaPrev : ℚ) (s : BState) : BState :=
  let beta := (s.rhoi / s.rhoi_old) * (alphaPrev / s.omega)
  let w := s.omega
  { s with pk := gridZip3 (fun r p v => r + beta * (p - w * v)) s.res s.pk s.vk,
           rhoi_old := s.rhoi }

/-- Update_h: a = rhoi / r0_dot_vk is computed into a local and the solution
gains a * p per cell; the member alpha is NOT written (the local a is
discarded), and the division carries no zero-denominator guard. -/
def Update_h (s : BState) : BState :=
  let a := s.rhoi / s.r0_dot_vk
  { s with sol := gridZip2 (fun x p => x + a * p) s.sol s.pk }

/-- Update_s: r = r - a * v with the same locally recomputed unguarded
a = rhoi / r0_dot_vk. -/
def Update_s (s : BState) : BState :=
  let a := s.rhoi / s.r0_dot_vk
  { s with res := gridZip2 (fun r v => r - a * v) s.res s.vk }

/-- OmegaDotProd: two par_reduce sums over the pack of tk and res (which
holds s at this point): tk dot res is added onto the t_dot_s handle and
tk dot tk onto the t_dot_t handle. -/
def OmegaDotProd (s : BState) : BState :=
  { s with t_dot_s := s.t_dot_s + parReduceDot s.tk s.res,
           t_dot_t := s.t_dot_t + parReduceDot s.tk s.tk }

/-- Update_x_res: omega = t_dot_s / t_dot_t (unguarded) is stored in the
member, then per cell the solution gains w * r (old r), r becomes r - w * t,
and the squared new residual is accumulated onto the gres handle. -/
def Update_x_res (s : BState) : BState :=
  let w := s.t_dot_s / s.t_dot_t
  let newres := gridZip2 (fun r t => r - w * t) s.res s.tk
  { s with omega := w,
           sol := gridZip2 (fun x r => x + w * r) s.sol s.res,
           res := newres,
           gres := s.gres + parReduceDot newres newres }

/-- Modelled from the spec (4.4 numeric care): Update_h with the guard the
claim asserts, refusing a denominator exactly equal to zero.  The source has
no such branch. -/
def Update_h_guarded (s : BState) : Option BState :=
  if s.r0_dot_vk = 0 then none else some (Update_h s)

/-- Modelled from the spec (4.4 numeric care): Update_s with the guard the
claim asserts. -/
def Update_s_guarded (s : BState) : Option BState :=
  if s.r0_dot_vk = 0 then none else some (Update_s s)

/-- Modelled from the spec (4.4 numeric care): Update_x_res with the guard
the claim asserts on the t dot t denominator. -/
def Update_x_res_guarded (s : BState) : Option BState :=
  if s.t_dot_t = 0 then none else some (Update_x_res s)

theorem foldl_add_mul (l : List (ℚ × ℚ)) :
    ∀ a : ℚ, l.foldl (fun x p => x + p.1 * p.2) a = a + (l.map (fun p => p.1 * p.2)).sum := by
  induction l with
  | nil => intro a; simp
  | cons p rest ih =>
    intro a
    simp only [List.foldl_cons, List.map_cons, List.sum_cons, ih]
    ring

theorem foldl_blocks_dot (l : List (List ℚ × List ℚ)) :
    ∀ a : ℚ,
      l.foldl (fun acc bp => (bp.1.zip bp.2).foldl (fun x p => x + p.1 * p.2) acc) a
        = a + (l.map (fun bp => ((bp.1.zip bp.2).map (fun p => p.1 * p.2)).sum)).sum := by
  induction l with
  | nil => intro a; simp
  | cons bp rest ih =>
    intro a
    simp only [List.foldl_cons, List.map_cons, List.sum_cons]
    rw [ih, foldl_add_mul]
    ring

theorem parReduceDot_eq_dotSum (f g : Grid) : parReduceDot f g = dotSum f g := by
  rw [parReduceDot, dotSum, foldl_blocks_dot]
  ring

theorem parReduceDot_zero_left (z g : Grid) (hz : isZeroGrid z) :
    parReduceDot z g = 0 := by
  rw [parReduceDot_eq_dotSum, dotSum]
  apply List.sum_eq_zero
  intro x hx
  rcases List.mem_map.mp hx with ⟨bp, hbp, rfl⟩
  apply List.sum_eq_zero
  intro y hy
  rcases List.mem_map.mp hy with ⟨p, hp, rfl⟩
  have h1 : p.1 ∈ bp.1 := (List.of_mem_zip (show (p.1, p.2) ∈ bp.1.zip bp.2 from hp)).1
  have hb1 : bp.1 ∈ z :=
    (List.of_mem_zip (show (bp.1, bp.2) ∈ z.zip g from hbp)).1
  rw [hz bp.1 hb1 p.1 h1, zero_mul]

/-- C9: DotProduct and OmegaDotProd accumulate into the shared scalar they
are given and never overwrite it: the result is the incoming accumulator
value plus the serial sum of pointwise products over all blocks and interior
cells (for OmegaDotProd, of tk with res, which holds s at that point, and of
tk with itself); two successive partition contributions therefore stack on
the incoming value, so the total equals the serial cross-partition sum
exactly when the accumulator started at zero. -/
theorem C9_dot_products_accumulate (c : ℚ) (v1 v2 w1 w2 : Grid) (s : BState) :
    DotProduct v1 v2 c = c + dotSum v1 v2
    ∧ (OmegaDotProd s).t_dot_s = s.t_dot_s + dotSum s.tk s.res
    ∧ (OmegaDotProd s).t_dot_t = s.t_dot_t + dotSum s.tk s.tk
    ∧ DotProduct w1 w2 (DotProduct v1 v2 c) = c + dotSum v1 v2 + dotSum w1 w2 := by
  refine ⟨?_, ?_, ?_, ?_⟩ <;>
    simp only [DotProduct, OmegaDotProd, parReduceDot_eq_dotSum]

/-- The concrete one-block one-cell state feeding the C1 counterexample run:
right-hand side 2, all accumulators zero (as createTaskList seeds them). -/
def c1s : BState :=
  { res := [[0]], res0 := [[0]], vk := [[0]], pk := [[0]], tk := [[0]],
    sol := [[0]], rhs := [[2]], rhoi_old := 0, alpha := 0, omega := 0,
    rhoi := 0, r0_dot_vk := 0, t_dot_s := 0, t_dot_t := 0, gres0 := 0, gres := 0 }

/-- C1: on a one-block one-cell grid with right-hand side 2, the accumulator
InitializeBiCGStab produces holds the plain sum 2 of the initial residual,
not the sum of squares 4 that the claim (and the convergence normalization
that later takes its square root) requires. -/
theorem C1_init_accumulator_not_sum_of_squares :
    (InitializeBiCGStab c1s).gres0 = 2
    ∧ dotSum c1s.rhs c1s.rhs = 4
    ∧ (InitializeBiCGStab c1s).gres0 ≠ dotSum c1s.rhs c1s.rhs := by
  refine ⟨?_, ?_, ?_⟩ <;>
    norm_num [InitializeBiCGStab, c1s, parReduceSum, dotSum]

/-- The concrete one-block one-cell state at the point of cycle-one Update_h:
rhoi = 2 was just reduced and r0_dot_vk = 1, so the alpha of step 5 is 2. -/
def c2s : BState :=
  { res := [[0]], res0 := [[0]], vk := [[0]], pk := [[1]], tk := [[0]],
    sol := [[0]], rhs := [[0]], rhoi_old := 1, alpha := 1, omega := 1,
    rhoi := 2, r0_dot_vk := 1, t_dot_s := 0, t_dot_t := 0, gres0 := 0, gres := 0 }

/-- The state entering the next cycle's Compute_pk: the new rhoi = 3 has been
reduced, rhoi_old = 2 kept the previous rhoi, omega is unchanged at 1, and
alpha is whatever Update_h left in the member. -/
def c2s2 : BState := { Update_h c2s with rhoi := 3, rhoi_old := 2 }

/-- C2: Update_h never stores the step-5 value rhoi / (r0 dot v) = 2 into the
member alpha (it stays at its initialization value 1, against the source's
own comment that alpha is updated there), so the next cycle's Compute_pk
forms beta from alpha = 1 and yields p = 3/2 where the claim's
previous-cycle alpha = 2 yields p = 3. -/
theorem C2_alpha_never_updated :
    (Update_h c2s).alpha = 1
    ∧ c2s.rhoi / c2s.r0_dot_vk = 2
    ∧ (Compute_pk c2s2).pk = [[3 / 2]]
    ∧ (Compute_pk_spec (c2s.rhoi / c2s.r0_dot_vk) c2s2).pk = [[3]]
    ∧ (Compute_pk c2s2).pk ≠ (Compute_pk_spec (c2s.rhoi / c2s.r0_dot_vk) c2s2).pk := by
  refine ⟨rfl, by norm_num [c2s], ?_, ?_, ?_⟩ <;>
    norm_num [Compute_pk, Compute_pk_spec, c2s2, c2s, Update_h, gridZip2, gridZip3]

/-- The MatVec task writing t = A s, with the product field abstracted as
tkProduct like in Task_MatVec_pk. -/
def Task_MatVec_s (tkProduct : Grid) (s : BState) : BState :=
  { s with tk := tkProduct }

/-- The state reached at the r0-dot-v reduction of the first cycle, starting
from state s: initialization, the rhoi dot product, Compute_pk, the
matrix-vector product (whose result field enters as vkProduct; the ghost
exchanges in between only refresh ghost cells and leave interior fields
unchanged), then the r0-dot-v dot product. -/
def c7reach (vkProduct : Grid) (s : BState) : BState :=
  Task_get_r0dotv (Task_MatVec_pk vkProduct (Compute_pk (Task_get_rhoi
    (InitializeBiCGStab s))))

/-- Continuing the same cycle to the point of Update_x_res: Update_h,
Update_s, the matrix-vector product t = A s (result abstracted as tkProduct;
the spec operator is linear, so on the zero vector it returns the zero
field), then OmegaDotProd. -/
def c7reach2 (tkProduct vkProduct : Grid) (s : BState) : BState :=
  OmegaDotProd (Task_MatVec_s tkProduct (Update_s (Update_h
    (c7reach vkProduct s))))

/-- C7 amended: none of the three divisions is guarded, and a denominator
exactly zero is reachable.  From any start state with a zero right-hand side
and zeroed r0_dot_vk and t_dot_t accumulators, the first cycle reaches
Update_h and Update_s with r0_dot_vk = 0 whatever the matrix-vector product
returned, and (with the zero field as the product A s, as the spec's linear
operator yields on the zero vector) reaches Update_x_res with t_dot_t = 0;
at each point the guarded variant the claim asserts refuses, while the
source function proceeds into the division by zero. -/
theorem C7_division_unguarded (s0 : BState) (vkProduct tkProduct : Grid)
    (hrhs : isZeroGrid s0.rhs) (hacc : s0.r0_dot_vk = 0)
    (htk : isZeroGrid tkProduct) (htacc : s0.t_dot_t = 0) :
    (c7reach vkProduct s0).r0_dot_vk = 0
    ∧ Update_h_guarded (c7reach vkProduct s0) = none
    ∧ Update_s_guarded (c7reach vkProduct s0) = none
    ∧ Update_h (c7reach vkProduct s0) =
        { c7reach vkProduct s0 with
            sol := gridZip2
              (fun x p => x + ((c7reach vkProduct s0).rhoi / 0) * p)
              (c7reach vkProduct s0).sol (c7reach vkProduct s0).pk }
    ∧ Update_s (c7reach vkProduct s0) =
        { c7reach vkProduct s0 with
            res := gridZip2
              (fun r v => r - ((c7reach vkProduct s0).rhoi / 0) * v)
              (c7reach vkProduct s0).res (c7reach vkProduct s0).vk }
    ∧ (c7reach2 tkProduct vkProduct s0).t_dot_t = 0
    ∧ Update_x_res_guarded (c7reach2 tkProduct vkProduct s0) = none
    ∧ Update_x_res (c7reach2 tkProduct vkProduct s0) =
        { c7reach2 tkProduct vkProduct s0 with
            omega := (c7reach2 tkProduct vkProduct s0).t_dot_s / 0,
            sol := gridZip2
              (fun x r => x + ((c7reach2 tkProduct vkProduct s0).t_dot_s / 0) * r)
              (c7reach2 tkProduct vkProduct s0).sol
              (c7reach2 tkProduct vkProduct s0).res,
            res := gridZip2
              (fun r t => r - ((c7reach2 tkProduct vkProduct s0).t_dot_s / 0) * t)
              (c7reach2 tkProduct vkProduct s0).res
              (c7reach2 tkProduct vkProduct s0).tk,
            gres := (c7reach2 tkProduct vkProduct s0).gres
              + parReduceDot
                  (gridZip2
                    (fun r t => r - ((c7reach2 tkProduct vkProduct s0).t_dot_s / 0) * t)
                    (c7reach2 tkProduct vkProduct s0).res
                    (c7reach2 tkProduct vkProduct s0).tk)
                  (gridZip2
                    (fun r t => r - ((c7reach2 tkProduct vkProduct s0).t_dot_s / 0) * t)
                    (c7reach2 tkProduct vkProduct s0).res
                    (c7reach2 tkProduct vkProduct s0).tk) } := by
  have h0 : (c7reach vkProduct s0).r0_dot_vk = 0 := by
    simp only [c7reach, Task_get_r0dotv, Task_MatVec_pk, Compute_pk,
      Task_get_rhoi, InitializeBiCGStab, DotProduct]
    rw [parReduceDot_zero_left _ _ hrhs, hacc]
    ring
  have ht0 : (c7reach2 tkProduct vkProduct s0).t_dot_t = 0 := by
    simp only [c7reach2, OmegaDotProd, Task_MatVec_s, Update_s, Update_h,
      c7reach, Task_get_r0dotv, Task_MatVec_pk, Compute_pk, Task_get_rhoi,
      InitializeBiCGStab, DotProduct]
    rw [parReduceDot_zero_left _ _ htk, htacc]
    ring
  refine ⟨h0, ?_, ?_, ?_, ?_, ht0, ?_, ?_⟩
  · rw [Update_h_guarded, if_pos h0]
  · rw [Update_s_guarded, if_pos h0]
  · rw [Update_h]
    simp only [h0]
  · rw [Update_s]
    simp only [h0]
  · rw [Update_x_res_guarded, if_pos ht0]
  · rw [Update_x_res]
    simp only [ht0]

/-- The concrete zero right-hand-side start state of the C7 run. -/
def c7s : BState :=
  { res := [[0]], res0 := [[0]], vk := [[0]], pk := [[0]], tk := [[0]],
    sol := [[0]], rhs := [[0]], rhoi_old := 0, alpha := 0, omega := 0,
    rhoi := 0, r0_dot_vk := 0, t_dot_s := 0, t_dot_t := 0, gres0 := 0, gres := 0 }

/-- C7 counterexample: on the concrete zero right-hand-side run (with 5 as
the A p product value and the zero field as the A s product value), the state
that reaches Update_h has denominator r0_dot_vk exactly zero and the state
that reaches Update_x_res has denominator t_dot_t exactly zero; the guards
the claim asserts would refuse both, yet the source Update_h and
Update_x_res proceed and compute their updates through the division by
zero. -/
theorem C7_division_unguarded_counterexample :
    (c7reach [[5]] c7s).r0_dot_vk = 0
    ∧ Update_h_guarded (c7reach [[5]] c7s) = none
    ∧ Update_h (c7reach [[5]] c7s) =
        { c7reach [[5]] c7s with
            sol := gridZip2
              (fun x p => x + ((c7reach [[5]] c7s).rhoi / 0) * p)
              (c7reach [[5]] c7s).sol (c7reach [[5]] c7s).pk }
    ∧ (c7reach2 [[0]] [[5]] c7s).t_dot_t = 0
    ∧ Update_x_res_guarded (c7reach2 [[0]] [[5]] c7s) = none
    ∧ Update_x_res (c7reach2 [[0]] [[5]] c7s) =
        { c7reach2 [[0]] [[5]] c7s with
            omega := (c7reach2 [[0]] [[5]] c7s).t_dot_s / 0,
            sol := gridZip2
              (fun x r => x + ((c7reach2 [[0]] [[5]] c7s).t_dot_s / 0) * r)
              (c7reach2 [[0]] [[5]] c7s).sol (c7reach2 [[0]] [[5]] c7s).res,
            res := gridZip2
              (fun r t => r - ((c7reach2 [[0]] [[5]] c7s).t_dot_s / 0) * t)
              (c7reach2 [[0]] [[5]] c7s).res (c7reach2 [[0]] [[5]] c7s).tk,
            gres := (c7reach2 [[0]] [[5]] c7s).gres
              + parReduceDot
                  (gridZip2
                    (fun r t => r - ((c7reach2 [[0]] [[5]] c7s).t_dot_s / 0) * t)
                    (c7reach2 [[0]] [[5]] c7s).res (c7reach2 [[0]] [[5]] c7s).tk)
                  (gridZip2
                    (fun r t => r - ((c7reach2 [[0]] [[5]] c7s).t_dot_s / 0) * t)
                    (c7reach2 [[0]] [[5]] c7s).res (c7reach2 [[0]] [[5]] c7s).tk) } := by
  have h0 : (c7reach [[5]] c7s).r0_dot_vk = 0 := by
    norm_num [c7reach, Task_get_r0dotv, Task_MatVec_pk, Compute_pk,
      Task_get_rhoi, InitializeBiCGStab, DotProduct, parReduceDot, c7s,
      parReduceSum, zeroLike]
  have ht0 : (c7reach2 [[0]] [[5]] c7s).t_dot_t = 0 := by
    norm_num [c7reach2, OmegaDotProd, Task_MatVec_s, Update_s, Update_h,
      c7reach, Task_get_r0dotv, Task_MatVec_pk, Compute_pk, Task_get_rhoi,
      InitializeBiCGStab, DotProduct, parReduceDot, c7s, parReduceSum,
      zeroLike, gridZip2, gridZip3]
  refine ⟨h0, by rw [Update_h_guarded, if_pos h0], ?_, ht0,
    by rw [Update_x_res_guarded, if_pos ht0], ?_⟩
  · rw [Update_h]
    simp only [h0]
  · rw [Update_x_res]
    simp only [ht0]

/-- C7 witness: the amended statement applied to the concrete zero
right-hand-side start state, with 5 as the A p product value and the zero
field as the A s product value. -/
theorem C7_division_unguarded_witness :
    (c7reach [[5]] c7s).r0_dot_vk = 0
    ∧ Update_h_guarded (c7reach [[5]] c7s) = none
    ∧ Update_s_guarded (c7reach [[5]] c7s) = none
    ∧ Update_h (c7reach [[5]] c7s) =
        { c7reach [[5]] c7s with
            sol := gridZip2
              (fun x p => x + ((c7reach [[5]] c7s).rhoi / 0) * p)
              (c7reach [[5]] c7s).sol (c7reach [[5]] c7s).pk }
    ∧ Update_s (c7reach [[5]] c7s) =
        { c7reach [[5]] c7s with
            res := gridZip2
              (fun r v => r - ((c7reach [[5]] c7s).rhoi / 0) * v)
              (c7reach [[5]] c7s).res (c7reach [[5]] c7s).vk }
    ∧ (c7reach2 [[0]] [[5]] c7s).t_dot_t = 0
    ∧ Update_x_res_guarded (c7reach2 [[0]] [[5]] c7s) = none
    ∧ Update_x_res (c7reach2 [[0]] [[5]] c7s) =
        { c7reach2 [[0]] [[5]] c7s with
            omega := (c7reach2 [[0]] [[5]] c7s).t_dot_s / 0,
            sol := gridZip2
              (fun x r => x + ((c7reach2 [[0]] [[5]] c7s).t_dot_s / 0) * r)
              (c7reach2 [[0]] [[5]] c7s).sol (c7reach2 [[0]] [[5]] c7s).res,
            res := gridZip2
              (fun r t => r - ((c7reach2 [[0]] [[5]] c7s).t_dot_s / 0) * t)
              (c7reach2 [[0]] [[5]] c7s).res (c7reach2 [[0]] [[5]] c7s).tk,
            gres := (c7reach2 [[0]] [[5]] c7s).gres
              + parReduceDot
                  (gridZip2
                    (fun r t => r - ((c7reach2 [[0]] [[5]] c7s).t_dot_s / 0) * t)
                    (c7reach2 [[0]] [[5]] c7s).res (c7reach2 [[0]] [[5]] c7s).tk)
                  (gridZip2
                    (fun r t => r - ((c7reach2 [[0]] [[5]] c7s).t_dot_s / 0) * t)
                    (c7reach2 [[0]] [[5]] c7s).res (c7reach2 [[0]] [[5]] c7s).tk) } :=
  C7_division_unguarded c7s [[5]] [[0]]
    (by intro b hb x hx; simp [c7s] at hb; subst hb; simpa using hx) rfl
    (by intro b hb x hx; simp at hb; subst hb; simpa using hx) rfl

/-! ## The BiCGStab task list wiring: createTaskList of bicgstab_solver.hpp -/

/-- The six shared reduction handles of the solver: initial residual, rhoi,
r0 dot v, t dot s, t dot t, and the cycle residual. -/
inductive RHandle where
  | initres
  | rho
  | r0v
  | ts
  | tt
  | resid
  deriving DecidableEq

/-- The kinds of task createTaskList adds, in source vocabulary: the
initialization task, the StartReduce / CheckReduce pair per handle, the
compute tasks, and the two ghost-exchange groups. -/
inductive TKind where
  | initBiCG
  | startReduce : RHandle → TKind
  | checkReduce : RHandle → TKind
  | getRhoi
  | computePk
  | startRecv1
  | send1
  | recv1
  | setb1
  | clear1
  | matVecP
  | getR0dotv
  | updateH
  | updateS
  | startRecv2
  | send2
  | recv2
  | setb2
  | clear2
  | matVecS
  | getTdots
  | updateX
  | checkConv
  deriving DecidableEq

/-- One task as added to the list for one partition: its kind and the ids
(positions in order of addition) of the tasks its TaskID dependency names. -/
structure TaskEntry where
  kind : TKind
  deps : List Nat
  deriving DecidableEq

/-- AddTask: append the task and hand back its id (its position). -/
def addTask (l : List TaskEntry) (deps : List Nat) (k : TKind) :
    List TaskEntry × Nat :=
  (l ++ [{ kind := k, deps := deps }], l.length)

/-- createTaskList for partition index i, as the source wires it: StartReduce
is added only when i == 0 (other partitions alias the TaskID of a prior local
task), while CheckReduce is added unconditionally on every partition.  The
source reuses some variable names (the second receive task, the t-dot-s
CheckReduce); the aliases of the nonzero-partition branches (get_rhoi for the
r0-dot-v start, get_tdots for the residual start) are kept exactly as
written. -/
def createTaskList (i : Nat) : List TaskEntry :=
  let p := addTask [] [] .initBiCG
  let init_bicgstab := p.2
  let p := if i = 0 then addTask p.1 [init_bicgstab] (.startReduce .initres)
           else (p.1, init_bicgstab)
  let p := addTask p.1 [p.2] (.checkReduce .initres)
  let p := addTask p.1 [init_bicgstab] .getRhoi
  let get_rhoi := p.2
  let p := if i = 0 then addTask p.1 [get_rhoi] (.startReduce .rho)
           else (p.1, get_rhoi)
  let p := addTask p.1 [p.2] (.checkReduce .rho)
  let finish_global_rhoi := p.2
  let p := addTask p.1 [finish_global_rhoi] .computePk
  let update_pk := p.2
  let p := addTask p.1 [] .startRecv1
  let start_recv1 := p.2
  let p := addTask p.1 [update_pk] .send1
  let send1 := p.2
  let p := addTask p.1 [start_recv1] .recv1
  let recv1 := p.2
  let p := addTask p.1 [recv1, update_pk] .setb1
  let setb1 := p.2
  let p := addTask p.1 [send1, setb1] .clear1
  let clear1 := p.2
  let p := addTask p.1 [clear1] .matVecP
  let get_v := p.2
  let p := addTask p.1 [get_v] .getR0dotv
  let get_r0dotv := p.2
  let p := if i = 0 then addTask p.1 [get_r0dotv] (.startReduce .r0v)
           else (p.1, get_rhoi)
  let p := addTask p.1 [p.2] (.checkReduce .r0v)
  let finish_global_r0dotv := p.2
  let p := addTask p.1 [finish_global_r0dotv] .updateH
  let p := addTask p.1 [finish_global_r0dotv] .updateS
  let get_s := p.2
  let p := addTask p.1 [clear1] .startRecv2
  let start_recv2 := p.2
  let p := addTask p.1 [get_s] .send2
  let p := addTask p.1 [start_recv2] .recv2
  let recv2 := p.2
  let p := addTask p.1 [recv2, get_s] .setb2
  let p := addTask p.1 [send1, setb1] .clear2
  let clear2 := p.2
  let p := addTask p.1 [clear2] .matVecS
  let get_t := p.2
  let p := addTask p.1 [get_t] .getTdots
  let get_tdots := p.2
  let p := if i = 0 then addTask p.1 [get_tdots] (.startReduce .ts)
           else (p.1, get_tdots)
  let p := addTask p.1 [p.2] (.checkReduce .ts)
  let finish_global_tdots := p.2
  let p := if i = 0 then addTask p.1 [get_tdots] (.startReduce .tt)
           else (p.1, get_tdots)
  let p := addTask p.1 [p.2] (.checkReduce .tt)
  let finish_global_tdott := p.2
  let p := addTask p.1 [finish_global_tdots, finish_global_tdott] .updateX
  let update_x := p.2
  let p := if i = 0 then addTask p.1 [update_x] (.startReduce .resid)
           else (p.1, get_tdots)
  let p := addTask p.1 [p.2] (.checkReduce .resid)
  let finish_global_res := p.2
  let p := addTask p.1 [finish_global_res] .checkConv
  p.1

/-- The kinds of the tasks a list holds, in addition order. -/
def taskKinds (l : List TaskEntry) : List TKind := l.map TaskEntry.kind

/-- C4 counterexample: partition index 1 must, per the claim, issue neither
StartReduce nor CheckReduce for any shared handle; in fact its list contains
the CheckReduce task for every one of the six handles. -/
theorem C4_checkreduce_everywhere_counterexample :
    TKind.checkReduce .initres ∈ taskKinds (createTaskList 1)
    ∧ TKind.checkReduce .rho ∈ taskKinds (createTaskList 1)
    ∧ TKind.checkReduce .r0v ∈ taskKinds (createTaskList 1)
    ∧ TKind.checkReduce .ts ∈ taskKinds (createTaskList 1)
    ∧ TKind.checkReduce .tt ∈ taskKinds (createTaskList 1)
    ∧ TKind.checkReduce .resid ∈ taskKinds (createTaskList 1) := by
  decide

/-- C4 amended: only partition 0 issues the StartReduce task of each shared
reduction handle (a nonzero partition aliases the TaskID of a prior local
task instead), but the CheckReduce task of every handle is issued by every
partition's list, not by partition 0 alone. -/
theorem C4_start_reduce_only_partition_zero (h : RHandle) :
    TKind.startReduce h ∈ taskKinds (createTaskList 0)
    ∧ (∀ i, i ≠ 0 → TKind.startReduce h ∉ taskKinds (createTaskList i))
    ∧ (∀ i, TKind.checkReduce h ∈ taskKinds (createTaskList i)) := by
  refine ⟨by cases h <;> decide, ?_, ?_⟩
  · intro i hi
    simp only [createTaskList, addTask, hi, if_false, taskKinds]
    cases h <;> decide
  · intro i
    by_cases hi : i = 0
    · subst hi
      cases h <;> decide
    · simp only [createTaskList, addTask, hi, if_false, taskKinds]
      cases h <;> decide

/-- C4 witness: the amended statement at the residual handle, checked on the
lists of partitions 0 and 1. -/
theorem C4_start_reduce_only_partition_zero_witness :
    TKind.startReduce .resid ∈ taskKinds (createTaskList 0)
    ∧ (∀ i, i ≠ 0 → TKind.startReduce .resid ∉ taskKinds (createTaskList i))
    ∧ (∀ i, TKind.checkReduce .resid ∈ taskKinds (createTaskList i)) :=
  C4_start_reduce_only_partition_zero .resid

end Parthenon
